import Mathlib

/-!
# Verification of the code-churn IQ system

Shallow embedding of the two source files of the repository:

* `code_churn_extractor.py` — walks a commit history and emits one
  `ChurnRecord` per (commit, file) pair (`extract_code_churn`);
* `iq_system.py` — the IQ Validator: the ten-check battery
  (`free_of_error_checks`) and the timeliness scorer (`compute_timeliness`).

Conventions of the embedding:

* A loaded CSV cell in a LOC column is a `CellVal`: an integer, an
  unparsed string (a column that pandas could not convert to a numeric
  dtype), or a null (NaN).  Comparing a string cell with an integer
  raises `PdError.typeError`, exactly as the elementwise pandas
  comparison `series >= 0` does on an object column; a null compares as
  `false` and propagates through `+`, as NaN does.
* The `date` column is a `DateVal`: either the raw string loaded from
  CSV, or the parsed value produced by the in-place coercion
  `df["date"] = pd.to_datetime(df["date"], errors="coerce")` at the top
  of check 2.  A parsed date is `Option Int` (a day number; `none` is
  `NaT`).  `NaT` comparisons are `false`, `NaT` max is skipped, exactly
  as in pandas.
* Checks that can raise return `Except PdError Bool`; the battery
  sequences the checks in source order, so an exception in check 4/5/6
  escapes and the later checks are never computed, as in Python.
* `compute_timeliness` reads only the (parsed) date column and the row
  count, so it is embedded as a function of the date column; the
  division `len(recent)/len(df)` on an empty frame is `0/0`, a
  `ZeroDivisionError`, embedded as `none`.
-/

namespace ChurnIQ

/-- Decidable equality of `Except` results, used to evaluate the check
battery on concrete inputs. -/
instance {ε α : Type} [DecidableEq ε] [DecidableEq α] : DecidableEq (Except ε α) :=
  fun a b =>
  match a, b with
  | .ok x, .ok y =>
    if h : x = y then .isTrue (by rw [h])
    else .isFalse (by intro hc; cases hc; exact h rfl)
  | .error x, .error y =>
    if h : x = y then .isTrue (by rw [h])
    else .isFalse (by intro hc; cases hc; exact h rfl)
  | .ok _, .error _ => .isFalse (by intro hc; cases hc)
  | .error _, .ok _ => .isFalse (by intro hc; cases hc)

/-- A pandas-level error escaping a check (e.g. `TypeError` from
comparing a string cell with an integer). -/
inductive PdError where
  | typeError
deriving DecidableEq

/-- A cell of one of the LOC columns after `pd.read_csv`: an integer, a
string the CSV loader could not convert to a number, or a null (NaN). -/
inductive CellVal where
  | int (n : Int)
  | str (s : String)
  | null
deriving DecidableEq

/-- A cell of the `date` column: the raw CSV value (a string or NaN), or
the value after the in-place `pd.to_datetime(..., errors="coerce")`
(a day number, `none` standing for `NaT`). -/
inductive DateVal where
  | raw (s : Option String)
  | parsed (t : Option Int)
deriving DecidableEq

/-- One row of `churn_data.csv`, per the fixed schema written by the
extractor.  String fields are `Option` to model NaN cells. -/
structure ChurnRecord where
  commit_hash : Option String
  author : Option String
  date : DateVal
  file_path : Option String
  module : Option String
  loc_added : CellVal
  loc_deleted : CellVal
  loc_modified : CellVal
deriving DecidableEq

/-! ## Date parsing (model of `pd.to_datetime` on `%Y-%m-%d` strings) -/

/-- Gregorian leap-year test. -/
def isLeapYear (y : Nat) : Bool :=
  y % 4 == 0 && (y % 100 != 0 || y % 400 == 0)

/-- Number of days of month `m` of year `y`. -/
def daysInMonth (y m : Nat) : Nat :=
  if m == 2 then (if isLeapYear y then 29 else 28)
  else if m == 4 || m == 6 || m == 9 || m == 11 then 30
  else 31

/-- Day number of the civil date `y-m-d` (standard era/year-of-era
computation; only differences of day numbers matter, so no epoch shift
is applied).  Requires `1 ≤ y`. -/
def daysFromCivil (y m d : Nat) : Int :=
  let y2 : Nat := if m ≤ 2 then y - 1 else y
  let era : Nat := y2 / 400
  let yoe : Nat := y2 % 400
  let mp : Nat := (m + 9) % 12
  let doy : Nat := (153 * mp + 2) / 5 + d - 1
  let doe : Nat := yoe * 365 + yoe / 4 - yoe / 100 + doy
  ((era * 146097 + doe : Nat) : Int)

/-- Split a character list on a separator character. -/
def splitChars (sep : Char) : List Char → List (List Char)
  | [] => [[]]
  | c :: cs =>
    let r := splitChars sep cs
    if c == sep then [] :: r
    else
      match r with
      | [] => [[c]]
      | g :: gs => (c :: g) :: gs

/-- The value of a decimal digit character, `none` for a non-digit. -/
def digitVal? (c : Char) : Option Nat :=
  let n := c.toNat
  if 48 ≤ n ∧ n ≤ 57 then some (n - 48) else none

/-- Accumulate a decimal numeral. -/
def digitsToNatAux : List Char → Nat → Option Nat
  | [], acc => some acc
  | c :: cs, acc =>
    match digitVal? c with
    | some d => digitsToNatAux cs (acc * 10 + d)
    | none => none

/-- A non-empty all-digit character list as a number, else `none`. -/
def digitsToNat? : List Char → Option Nat
  | [] => none
  | cs => digitsToNatAux cs 0

/-- Model of `pd.to_datetime(s, errors="coerce")` for the `%Y-%m-%d`
strings the extractor writes: a valid calendar date parses to its day
number, anything else coerces to `NaT` (`none`). -/
def parseDate (s : String) : Option Int :=
  match splitChars '-' s.toList with
  | [ys, ms, ds] =>
    match digitsToNat? ys, digitsToNat? ms, digitsToNat? ds with
    | some y, some m, some d =>
      if 1 ≤ y ∧ 1 ≤ m ∧ m ≤ 12 ∧ 1 ≤ d ∧ d ≤ daysInMonth y m then
        some (daysFromCivil y m d)
      else none
    | _, _, _ => none
  | _ => none

/-- The parsed value of a date cell: `to_datetime` coerces a raw string
(NaN raw cells become `NaT`), and is the identity on an already-parsed
column. -/
def toDatetime : DateVal → Option Int
  | .raw none => none
  | .raw (some s) => parseDate s
  | .parsed t => t

/-- The raw string content of a date cell of a freshly loaded frame
(before the in-place coercion). -/
def rawStrOf : DateVal → Option String
  | .raw s => s
  | .parsed _ => none

/-- Line 24 of `iq_system.py`, per record:
`df["date"] = pd.to_datetime(df["date"], errors="coerce")`. -/
def coerceRecord (r : ChurnRecord) : ChurnRecord :=
  { r with date := .parsed (toDatetime r.date) }

/-- The in-place date coercion applied to the whole frame. -/
def coerceDates (df : List ChurnRecord) : List ChurnRecord :=
  df.map coerceRecord

/-! ## Cell-level operations (pandas elementwise semantics) -/

/-- `cell >= 0`: integers compare, NaN compares `False`, a string cell
raises `TypeError`. -/
def cellGe0 : CellVal → Except PdError Bool
  | .int n => .ok (decide (0 ≤ n))
  | .null => .ok false
  | .str _ => .error .typeError

/-- `cell < 10000`: integers compare, NaN compares `False`, a string
cell raises `TypeError`. -/
def cellLt10000 : CellVal → Except PdError Bool
  | .int n => .ok (decide (n < 10000))
  | .null => .ok false
  | .str _ => .error .typeError

/-- Elementwise `+` of two cells: ints add, strings concatenate, NaN
propagates over ints, and a string mixed with an int or NaN raises
`TypeError`. -/
def addCell : CellVal → CellVal → Except PdError CellVal
  | .int a, .int b => .ok (.int (a + b))
  | .str a, .str b => .ok (.str (a ++ b))
  | .int _, .null => .ok .null
  | .null, .int _ => .ok .null
  | .null, .null => .ok .null
  | _, _ => .error .typeError

/-- Elementwise `==` of two cells: never raises; mismatched types are
unequal and NaN is unequal to everything, including itself. -/
def eqCell : CellVal → CellVal → Bool
  | .int a, .int b => a == b
  | .str a, .str b => a == b
  | _, _ => false

/-- Whether a cell is a null (NaN), as `isnull` reports it. -/
def cellIsNull : CellVal → Bool
  | .null => true
  | _ => false

/-- Whether a cell is an unconverted string. -/
def cellIsStr : CellVal → Bool
  | .str _ => true
  | _ => false

/-- Whether a date cell is null (`NaN` raw, or `NaT` parsed). -/
def dateIsNull : DateVal → Bool
  | .raw none => true
  | .raw (some _) => false
  | .parsed none => true
  | .parsed (some _) => false

/-- `series.all()` over a fallible elementwise predicate: an exception
in any cell escapes, otherwise the conjunction is returned. -/
def seriesAll (f : CellVal → Except PdError Bool) : List CellVal → Except PdError Bool
  | [] => .ok true
  | c :: cs =>
    match f c with
    | .error e => .error e
    | .ok b =>
      match seriesAll f cs with
      | .error e => .error e
      | .ok r => .ok (b && r)

/-- Whether the list contains two fully identical rows
(`df.duplicated().any()`; NaN cells in the same position count as
equal for duplicate detection, as in pandas). -/
def hasDup : List ChurnRecord → Bool
  | [] => false
  | r :: rs => rs.any (fun x => decide (x = r)) || hasDup rs

/-- Whether a list of integers is non-decreasing. -/
def sortedLeInt : List Int → Bool
  | [] => true
  | [_] => true
  | a :: b :: t => decide (a ≤ b) && sortedLeInt (b :: t)

/-- Lexicographic `≤` on character lists by code point, as numpy
compares Python strings elementwise. -/
def charListLe : List Char → List Char → Bool
  | [], _ => true
  | _ :: _, [] => false
  | a :: as, b :: bs =>
    if a.toNat < b.toNat then true
    else if b.toNat < a.toNat then false
    else charListLe as bs

/-- Lexicographic `≤` on strings. -/
def strLe (a b : String) : Bool :=
  charListLe a.toList b.toList

/-- Whether a list of strings is lexicographically non-decreasing. -/
def sortedLeStr : List String → Bool
  | [] => true
  | [_] => true
  | a :: b :: t => strLe a b && sortedLeStr (b :: t)

/-- `is_monotonic_increasing` of a datetime column: `False` as soon as
any `NaT` is present, else pairwise non-decreasing. -/
def monoIncD (ds : List (Option Int)) : Bool :=
  ds.all Option.isSome && sortedLeInt (ds.filterMap id)

/-- `is_monotonic_decreasing` of a datetime column. -/
def monoDecD (ds : List (Option Int)) : Bool :=
  ds.all Option.isSome && sortedLeInt (ds.filterMap id).reverse

/-- `is_monotonic_increasing` of a raw (object/string) column:
lexicographic, `False` as soon as any NaN is present. -/
def monoIncS (ds : List (Option String)) : Bool :=
  ds.all Option.isSome && sortedLeStr (ds.filterMap id)

/-- `is_monotonic_decreasing` of a raw (object/string) column. -/
def monoDecS (ds : List (Option String)) : Bool :=
  ds.all Option.isSome && sortedLeStr (ds.filterMap id).reverse

/-! ## The ten checks

Each `check_*` definition is the one source line of
`free_of_error_checks` applied to the frame it is handed.  The battery
applies them in source order, handing the mutated frame (date column
coerced) to checks 3–10 and the fresh frame to check 1, exactly as the
in-place assignment on line 24 makes the Python code do. -/

/-- Whether some field of the record is null. -/
def recordHasNull (r : ChurnRecord) : Bool :=
  r.commit_hash.isNone || r.author.isNone || dateIsNull r.date ||
  r.file_path.isNone || r.module.isNone ||
  cellIsNull r.loc_added || cellIsNull r.loc_deleted || cellIsNull r.loc_modified

/-- Check 1: `df.isnull().sum().sum() == 0`. -/
def check_missing_values (df : List ChurnRecord) : Bool :=
  df.all (fun r => !recordHasNull r)

/-- `NaT`-safe `date <= today` (a `NaT` comparison is `False`). -/
def dateLe (d : Option Int) (today : Int) : Bool :=
  match d with
  | some t => decide (t ≤ today)
  | none => false

/-- Check 2: coerce the date column, then
`df["date"].notna().all() and (df["date"] <= dt.datetime.today()).all()`. -/
def check_valid_dates (df : List ChurnRecord) (today : Int) : Bool :=
  let df2 := coerceDates df
  (df2.all fun r => (toDatetime r.date).isSome) &&
  (df2.all fun r => dateLe (toDatetime r.date) today)

/-- Check 3: `not df.duplicated().any()`. -/
def check_no_duplicates (df : List ChurnRecord) : Bool :=
  !hasDup df

/-- Check 4: `(added >= 0).all() and (deleted >= 0).all() and
(modified >= 0).all()`, with Python short-circuiting: a falsy first
conjunct suppresses evaluation (and hence any exception) of the later
columns. -/
def check_non_negative_LOC (df : List ChurnRecord) : Except PdError Bool :=
  match seriesAll cellGe0 (df.map fun r => r.loc_added) with
  | .error e => .error e
  | .ok a =>
    if a then
      match seriesAll cellGe0 (df.map fun r => r.loc_deleted) with
      | .error e => .error e
      | .ok b =>
        if b then seriesAll cellGe0 (df.map fun r => r.loc_modified)
        else .ok false
    else .ok false

/-- Check 5: `(df["loc_modified"] == df["loc_added"] + df["loc_deleted"]).all()`;
the elementwise `+` can raise, the `==` cannot. -/
def check_LOC_consistency : List ChurnRecord → Except PdError Bool
  | [] => .ok true
  | r :: rs =>
    match addCell r.loc_added r.loc_deleted with
    | .error e => .error e
    | .ok s =>
      match check_LOC_consistency rs with
      | .error e => .error e
      | .ok b => .ok (eqCell r.loc_modified s && b)

/-- Check 6: `(df["loc_modified"] < 10000).all()`. -/
def check_reasonable_LOC_bounds (df : List ChurnRecord) : Except PdError Bool :=
  seriesAll cellLt10000 (df.map fun r => r.loc_modified)

/-- `len(str(x)) == 8` for a hash cell (`str(nan) = "nan"`, length 3). -/
def hashLen8 : Option String → Bool
  | some s => s.length == 8
  | none => false

/-- Check 7: `df["commit_hash"].apply(lambda x: len(str(x)) == 8).all()`. -/
def check_valid_commit_hash (df : List ChurnRecord) : Bool :=
  df.all (fun r => hashLen8 r.commit_hash)

/-- `isinstance(x, str) and len(x) > 1` for an author cell (NaN is not
a `str`). -/
def authorOk : Option String → Bool
  | some s => decide (1 < s.length)
  | none => false

/-- Check 8: `df["author"].apply(lambda x: isinstance(x, str) and len(x) > 1).all()`. -/
def check_author_validity (df : List ChurnRecord) : Bool :=
  df.all (fun r => authorOk r.author)

/-- Check 9: `df["module"].notna().all()`. -/
def check_module_field_presence (df : List ChurnRecord) : Bool :=
  df.all (fun r => r.module.isSome)

/-- Check 10 as the battery evaluates it: the date column has already
been coerced to datetimes, so `is_monotonic_*` uses datetime order. -/
def chronoParsed (df : List ChurnRecord) : Bool :=
  monoIncD (df.map fun r => toDatetime r.date) ||
  monoDecD (df.map fun r => toDatetime r.date)

/-- Check 10 evaluated alone on a freshly loaded frame: the date column
still holds the raw CSV strings, so `is_monotonic_*` compares
lexicographically. -/
def check_chronological_order (df : List ChurnRecord) : Bool :=
  monoIncS (df.map fun r => rawStrOf r.date) ||
  monoDecS (df.map fun r => rawStrOf r.date)

/-- The named results of the ten checks, in source order. -/
structure IQChecks where
  missing_values : Bool
  valid_dates : Bool
  no_duplicates : Bool
  non_negative_LOC : Bool
  LOC_consistency : Bool
  reasonable_LOC_bounds : Bool
  valid_commit_hash : Bool
  author_validity : Bool
  module_field_presence : Bool
  chronological_order : Bool
deriving DecidableEq

/-- `free_of_error_checks(df)` of `iq_system.py`: the ten checks in
source order.  Check 2's in-place date coercion mutates the frame, so
the function also returns the frame in its final state; an exception
raised by check 4, 5 or 6 escapes and aborts the battery. -/
def free_of_error_checks (df : List ChurnRecord) (today : Int) :
    Except PdError (IQChecks × List ChurnRecord) :=
  let missing := check_missing_values df
  let df2 := coerceDates df
  let vd := check_valid_dates df today
  let nd := check_no_duplicates df2
  match check_non_negative_LOC df2 with
  | .error e => .error e
  | .ok nn =>
    match check_LOC_consistency df2 with
    | .error e => .error e
    | .ok lc =>
      match check_reasonable_LOC_bounds df2 with
      | .error e => .error e
      | .ok rb =>
        .ok ({ missing_values := missing
             , valid_dates := vd
             , no_duplicates := nd
             , non_negative_LOC := nn
             , LOC_consistency := lc
             , reasonable_LOC_bounds := rb
             , valid_commit_hash := check_valid_commit_hash df2
             , author_validity := check_author_validity df2
             , module_field_presence := check_module_field_presence df2
             , chronological_order := chronoParsed df2 }, df2)

/-! ## Timeliness -/

/-- Binary max on optional dates: `NaT` is skipped, as pandas `max`
does. -/
def maxO : Option Int → Option Int → Option Int
  | none, b => b
  | some a, none => some a
  | some a, some b => some (max a b)

/-- `df["date"].max()`: the maximum of the parseable dates, `NaT` when
there is none. -/
def maxDate (ds : List (Option Int)) : Option Int :=
  ds.foldl maxO none

/-- `date >= cutoff` with `NaT` semantics: any comparison involving
`NaT` is `False`. -/
def isRecent (cutoff d : Option Int) : Bool :=
  match cutoff, d with
  | some c, some t => decide (c ≤ t)
  | _, _ => false

/-- `compute_timeliness(df)` of `iq_system.py`.  The function reads only
the (parsed) date column and the row count, so it is embedded over the
date column: `cutoff = max - 90 days`, score
`len(df[df["date"] >= cutoff]) / len(df)`.  On an empty frame the
division is `0/0`, a `ZeroDivisionError`, embedded as `none`. -/
def compute_timeliness (dates : List (Option Int)) : Option ℚ :=
  if dates.length = 0 then none
  else
    some (((dates.countP (isRecent ((maxDate dates).map fun t => t - 90))) : ℚ) /
      (dates.length : ℚ))

/-! ## Extractor (`code_churn_extractor.py`) -/

/-- The change statistics of one file of one commit
(`commit.stats.files[file_path]`); the counts are read with
`.get("insertions", 0)` / `.get("deletions", 0)`, hence optional. -/
structure FileStat where
  insertions : Option Nat
  deletions : Option Nat

/-- One commit of the walked history.  Retrieving `commit.stats.files`
can raise, so the stats are an `Except`; the other fields are the data
the loop reads from the commit object. -/
structure CommitInfo where
  hexsha : String
  authorName : Option String
  dateStr : String
  statsFiles : Except String (List (String × FileStat))

/-- `file_path.split("/")[0] if "/" in file_path else "root"`. -/
def moduleOf (fp : String) : String :=
  if fp.contains '/' then (fp.splitOn "/").headD "" else "root"

/-- The record the extractor appends for one file of one commit. -/
def recordOfFile (c : CommitInfo) (fp : String) (fs : FileStat) : ChurnRecord :=
  let a : Nat := fs.insertions.getD 0
  let d : Nat := fs.deletions.getD 0
  { commit_hash := some (c.hexsha.take 8)
  , author := some (c.authorName.getD "Unknown")
  , date := .raw (some c.dateStr)
  , file_path := some fp
  , module := some (moduleOf fp)
  , loc_added := .int (a : Int)
  , loc_deleted := .int (d : Int)
  , loc_modified := .int ((a : Int) + (d : Int)) }

/-- `extract_code_churn` of `code_churn_extractor.py`: for each commit
in iteration order, append one record per file of its change
statistics; a commit whose statistics retrieval raises is skipped
(`except` clause) and the walk continues. -/
def extract_code_churn : List CommitInfo → List ChurnRecord
  | [] => []
  | c :: cs =>
    (match c.statsFiles with
     | .error _ => []
     | .ok files => files.map fun p => recordOfFile c p.1 p.2) ++
    extract_code_churn cs

end ChurnIQ

namespace ChurnIQ

/-! ## Helper lemmas about the timeliness scorer -/

theorem maxDate_append_singleton (ds : List (Option Int)) (x : Option Int) :
    maxDate (ds ++ [x]) = maxO (maxDate ds) x := by
  simp [maxDate, List.foldl_append]

theorem ne_nil_of_maxDate_some {ds : List (Option Int)} {m : Int}
    (h : maxDate ds = some m) : ds ≠ [] := by
  intro he
  subst he
  simp [maxDate] at h

theorem foldl_maxO_isSome (ds : List (Option Int)) (acc : Option Int)
    (h : acc.isSome) : (ds.foldl maxO acc).isSome := by
  induction ds generalizing acc with
  | nil => exact h
  | cons x t ih =>
    apply ih
    cases acc with
    | none => simp at h
    | some a => cases x <;> simp [maxO]

theorem foldl_maxO_mem (ds : List (Option Int)) (acc : Option Int) (m : Int)
    (h : ds.foldl maxO acc = some m) : acc = some m ∨ some m ∈ ds := by
  induction ds generalizing acc with
  | nil => exact Or.inl h
  | cons x t ih =>
    rcases ih (maxO acc x) h with h1 | h1
    · cases acc with
      | none =>
        right
        simp only [maxO] at h1
        simp [h1]
      | some a =>
        cases x with
        | none => exact Or.inl h1
        | some b =>
          simp only [maxO, Option.some.injEq] at h1
          rcases max_choice a b with hm | hm
          · left
            rw [← h1, hm]
          · right
            rw [hm] at h1
            simp [h1]
    · exact Or.inr (List.mem_cons_of_mem _ h1)

theorem maxDate_isSome_of_mem {ds : List (Option Int)} {v : Int}
    (h : some v ∈ ds) : (maxDate ds).isSome := by
  induction ds with
  | nil => simp at h
  | cons x t ih =>
    show (List.foldl maxO (maxO none x) t).isSome
    rcases List.mem_cons.mp h with rfl | hmem
    · exact foldl_maxO_isSome t (maxO none (some v)) (by simp [maxO])
    · cases hx : maxO none x with
      | none => simpa [maxDate, hx] using ih hmem
      | some a => exact foldl_maxO_isSome t _ (by simp [hx])

theorem maxDate_mem {ds : List (Option Int)} {m : Int}
    (h : maxDate ds = some m) : some m ∈ ds := by
  rcases foldl_maxO_mem ds none m h with h1 | h1
  · simp at h1
  · exact h1

/-- C1: for a non-empty dataset of valid dates, the timeliness scorer
returns (count of records with date ≥ max − 90) / (record count), a
value in `[0, 1]`. -/
theorem c1_timeliness_fraction (dates : List (Option Int))
    (hne : dates ≠ []) (_hv : ∀ d ∈ dates, d.isSome) :
    ∃ q : ℚ,
      compute_timeliness dates = some q ∧
      q = ((dates.countP (isRecent ((maxDate dates).map fun t => t - 90)) : ℚ)) /
        ((dates.length : ℚ)) ∧
      0 ≤ q ∧ q ≤ 1 := by
  have hn : 0 < dates.length := List.length_pos.mpr hne
  have hn' : dates.length ≠ 0 := Nat.pos_iff_ne_zero.mp hn
  have hnq : (0 : ℚ) < (dates.length : ℚ) := by exact_mod_cast hn
  have e1 : compute_timeliness dates =
      some ((dates.countP (isRecent ((maxDate dates).map fun t => t - 90)) : ℚ) /
        (dates.length : ℚ)) := by
    simp [compute_timeliness, hn']
  refine ⟨_, e1, rfl, by positivity, ?_⟩
  rw [div_le_one hnq]
  exact_mod_cast List.countP_le_length _

theorem c1_timeliness_fraction_witness :
    ∃ q : ℚ,
      compute_timeliness [some 0, some 85] = some q ∧
      q = (([some 0, some 85].countP
          (isRecent ((maxDate [some 0, some 85]).map fun t => t - 90)) : ℚ)) /
        (([some 0, some 85].length : ℚ)) ∧
      0 ≤ q ∧ q ≤ 1 :=
  c1_timeliness_fraction [some 0, some 85] (by simp) (by simp)

/-- C3 counterexample: the timeliness computation over zero records is
not guarded; it hits the division `0/0` (a `ZeroDivisionError`,
embedded as `none`) instead of returning a value. -/
theorem c3_empty_counterexample : compute_timeliness [] = none := rfl

/-- C3 amended: the timeliness computation fails (division-by-zero /
empty-input error) exactly on the dataset with zero records. -/
theorem c3_empty_division_error (dates : List (Option Int)) :
    compute_timeliness dates = none ↔ dates = [] := by
  constructor
  · intro h
    by_contra hne
    have hn' : dates.length ≠ 0 := Nat.pos_iff_ne_zero.mp (List.length_pos.mpr hne)
    simp [compute_timeliness, hn'] at h
  · rintro rfl
    rfl

/-- C4 counterexample: on the dataset with dates {0, 85} the score is
1; appending date 100 — within 90 days of the current maximum 85 —
moves the cutoff forward and drops the record at 0, so the score
decreases to 2/3. -/
theorem c4_monotonicity_counterexample :
    maxDate [some 0, some 85] = some 85 ∧
    (85 - 90 : Int) ≤ 100 ∧ (100 - 85 : Int) ≤ 90 ∧
    compute_timeliness [some 0, some 85] = some 1 ∧
    compute_timeliness [some 0, some 85, some 100] = some (2/3) ∧
    ¬ ((1 : ℚ) ≤ 2/3) := by
  refine ⟨rfl, by norm_num, by norm_num, ?_, ?_, by norm_num⟩
  · norm_num [compute_timeliness, maxDate, maxO, isRecent, List.countP, List.countP.go]
  · norm_num [compute_timeliness, maxDate, maxO, isRecent, List.countP, List.countP.go]

/-- C4 amended: appending a record whose date lies within the window
[max − 90, max] of the current maximum never decreases the score, and
appending one older than the cutoff never increases it.  (The original
claim fails when the appended date exceeds the current maximum: it
moves the cutoff forward.) -/
theorem c4_timeliness_monotonicity_amended :
    (∀ (dates : List (Option Int)) (d m : Int),
        maxDate dates = some m → m - 90 ≤ d → d ≤ m →
        ∃ q q' : ℚ, compute_timeliness dates = some q ∧
          compute_timeliness (dates ++ [some d]) = some q' ∧ q ≤ q') ∧
    (∀ (dates : List (Option Int)) (d m : Int),
        maxDate dates = some m → d < m - 90 →
        ∃ q q' : ℚ, compute_timeliness dates = some q ∧
          compute_timeliness (dates ++ [some d]) = some q' ∧ q' ≤ q) := by
  constructor
  · intro dates d m hmax hd1 hd2
    have hne := ne_nil_of_maxDate_some hmax
    have hn : 0 < dates.length := List.length_pos.mpr hne
    have hn' : dates.length ≠ 0 := Nat.pos_iff_ne_zero.mp hn
    have hmax' : maxDate (dates ++ [some d]) = some m := by
      rw [maxDate_append_singleton, hmax]
      simp [maxO, max_eq_left hd2]
    have hcount : (dates ++ [some d]).countP (isRecent (some (m - 90))) =
        dates.countP (isRecent (some (m - 90))) + 1 := by
      rw [List.countP_append]
      simp [isRecent, hd1]
    have e1 : compute_timeliness dates =
        some ((dates.countP (isRecent (some (m - 90))) : ℚ) / (dates.length : ℚ)) := by
      simp [compute_timeliness, hn', hmax]
    have e2 : compute_timeliness (dates ++ [some d]) =
        some (((dates.countP (isRecent (some (m - 90))) : ℚ) + 1) /
          ((dates.length : ℚ) + 1)) := by
      simp [compute_timeliness, hmax', hcount]
    refine ⟨_, _, e1, e2, ?_⟩
    have hr : dates.countP (isRecent (some (m - 90))) ≤ dates.length :=
      List.countP_le_length _
    have hrq : ((dates.countP (isRecent (some (m - 90))) : ℚ)) ≤ ((dates.length : ℚ)) := by
      exact_mod_cast hr
    have hnq : (0 : ℚ) < (dates.length : ℚ) := by exact_mod_cast hn
    rw [div_le_div_iff₀ hnq (by positivity)]
    nlinarith
  · intro dates d m hmax hd1
    have hne := ne_nil_of_maxDate_some hmax
    have hn : 0 < dates.length := List.length_pos.mpr hne
    have hn' : dates.length ≠ 0 := Nat.pos_iff_ne_zero.mp hn
    have hmax' : maxDate (dates ++ [some d]) = some m := by
      rw [maxDate_append_singleton, hmax]
      have : d ≤ m := by omega
      simp [maxO, max_eq_left this]
    have hcount : (dates ++ [some d]).countP (isRecent (some (m - 90))) =
        dates.countP (isRecent (some (m - 90))) := by
      rw [List.countP_append]
      simp [isRecent]
      omega
    have e1 : compute_timeliness dates =
        some ((dates.countP (isRecent (some (m - 90))) : ℚ) / (dates.length : ℚ)) := by
      simp [compute_timeliness, hn', hmax]
    have e2 : compute_timeliness (dates ++ [some d]) =
        some ((dates.countP (isRecent (some (m - 90))) : ℚ) /
          ((dates.length : ℚ) + 1)) := by
      simp [compute_timeliness, hmax', hcount]
    refine ⟨_, _, e1, e2, ?_⟩
    have hnq : (0 : ℚ) < (dates.length : ℚ) := by exact_mod_cast hn
    rw [div_le_div_iff₀ (by positivity) hnq]
    nlinarith [Nat.cast_nonneg (α := ℚ) (dates.countP (isRecent (some (m - 90))))]

theorem c4_timeliness_monotonicity_amended_witness :
    (∃ q q' : ℚ, compute_timeliness [some 5] = some q ∧
      compute_timeliness ([some 5] ++ [some 5]) = some q' ∧ q ≤ q') ∧
    (∃ q q' : ℚ, compute_timeliness [some 100] = some q ∧
      compute_timeliness ([some 100] ++ [some 0]) = some q' ∧ q' ≤ q) :=
  ⟨c4_timeliness_monotonicity_amended.1 [some 5] 5 5 rfl (by norm_num) (by norm_num),
   c4_timeliness_monotonicity_amended.2 [some 100] 0 100 rfl (by norm_num)⟩

/-- C10: on a non-empty dataset of valid dates the score is strictly
positive — the record attaining the maximum date is always counted. -/
theorem c10_timeliness_positive (dates : List (Option Int))
    (hne : dates ≠ []) (hv : ∀ d ∈ dates, d.isSome) :
    ∃ q : ℚ, compute_timeliness dates = some q ∧ 0 < q := by
  have hn : 0 < dates.length := List.length_pos.mpr hne
  have hn' : dates.length ≠ 0 := Nat.pos_iff_ne_zero.mp hn
  obtain ⟨x, hx⟩ := List.exists_mem_of_ne_nil dates hne
  obtain ⟨v, rfl⟩ := Option.isSome_iff_exists.mp (hv x hx)
  have hs : (maxDate dates).isSome := maxDate_isSome_of_mem hx
  obtain ⟨m, hm⟩ := Option.isSome_iff_exists.mp hs
  have hmem : some m ∈ dates := maxDate_mem hm
  have hcount : 0 < dates.countP (isRecent ((maxDate dates).map fun t => t - 90)) := by
    rw [List.countP_pos_iff]
    refine ⟨some m, hmem, ?_⟩
    simp [isRecent, hm]
  have e1 : compute_timeliness dates =
      some ((dates.countP (isRecent ((maxDate dates).map fun t => t - 90)) : ℚ) /
        (dates.length : ℚ)) := by
    simp [compute_timeliness, hn']
  refine ⟨_, e1, ?_⟩
  have h1 : (0 : ℚ) < (dates.countP (isRecent ((maxDate dates).map fun t => t - 90)) : ℚ) := by
    exact_mod_cast hcount
  have h2 : (0 : ℚ) < (dates.length : ℚ) := by exact_mod_cast hn
  positivity

theorem c10_timeliness_positive_witness :
    ∃ q : ℚ, compute_timeliness [some 0, some 85] = some q ∧ 0 < q :=
  c10_timeliness_positive [some 0, some 85] (by simp) (by simp)

/-- C9: the empty dataset passes all ten checks: the battery returns
`true` for every named check (and raises nothing). -/
theorem c9_empty_dataset_passes_all_checks (today : Int) :
    free_of_error_checks [] today =
      .ok ({ missing_values := true, valid_dates := true, no_duplicates := true,
             non_negative_LOC := true, LOC_consistency := true,
             reasonable_LOC_bounds := true, valid_commit_hash := true,
             author_validity := true, module_field_presence := true,
             chronological_order := true }, []) := rfl

end ChurnIQ

namespace ChurnIQ

/-! ## Example records (concrete inputs for witnesses and counterexamples) -/

/-- A fully clean example record. -/
def recA : ChurnRecord :=
  { commit_hash := some "abcd1234", author := some "Alice"
  , date := .raw (some "2024-01-02"), file_path := some "src/a.py"
  , module := some "src"
  , loc_added := .int 3, loc_deleted := .int 2, loc_modified := .int 5 }

/-- Clean except for an unparseable date string. -/
def recBadDate : ChurnRecord :=
  { recA with commit_hash := some "abcd1235", date := .raw (some "x") }

/-- Clean except for a non-numeric `loc_added` cell. -/
def recStrLoc : ChurnRecord :=
  { recA with loc_added := .str "x" }

/-- An example file-stats entry of a commit. -/
def exStatGood : FileStat := { insertions := some 3, deletions := some 2 }

/-- A commit whose statistics retrieval succeeds. -/
def exCommitGood : CommitInfo :=
  { hexsha := "abcd1234ffff", authorName := some "Alice"
  , dateStr := "2024-01-02", statsFiles := .ok [("src/a.py", exStatGood)] }

/-- A commit whose statistics retrieval raises. -/
def exCommitBad : CommitInfo :=
  { hexsha := "deadbeefffff", authorName := some "Bob"
  , dateStr := "2024-01-03", statsFiles := .error "stats failed" }

/-! ## Inversion and preservation lemmas for the battery -/

theorem free_of_error_checks_ok_inv {df : List ChurnRecord} {today : Int}
    {c : IQChecks} {df2 : List ChurnRecord}
    (h : free_of_error_checks df today = .ok (c, df2)) :
    df2 = coerceDates df ∧
    ∃ nn lc rb,
      check_non_negative_LOC (coerceDates df) = .ok nn ∧
      check_LOC_consistency (coerceDates df) = .ok lc ∧
      check_reasonable_LOC_bounds (coerceDates df) = .ok rb ∧
      c = { missing_values := check_missing_values df
          , valid_dates := check_valid_dates df today
          , no_duplicates := check_no_duplicates (coerceDates df)
          , non_negative_LOC := nn
          , LOC_consistency := lc
          , reasonable_LOC_bounds := rb
          , valid_commit_hash := check_valid_commit_hash (coerceDates df)
          , author_validity := check_author_validity (coerceDates df)
          , module_field_presence := check_module_field_presence (coerceDates df)
          , chronological_order := chronoParsed (coerceDates df) } := by
  rw [free_of_error_checks] at h
  split at h
  · exact absurd h (by simp)
  next nn hnn =>
    split at h
    · exact absurd h (by simp)
    next lc hlc =>
      split at h
      · exact absurd h (by simp)
      next rb hrb =>
        obtain ⟨h1, h2⟩ := Prod.mk.inj (Except.ok.inj h)
        exact ⟨h2.symm, nn, lc, rb, hnn, hlc, hrb, h1.symm⟩

theorem coerce_map_loc_added (df : List ChurnRecord) :
    (coerceDates df).map (fun r => r.loc_added) = df.map (fun r => r.loc_added) := by
  simp only [coerceDates, List.map_map]
  rfl

theorem coerce_map_loc_deleted (df : List ChurnRecord) :
    (coerceDates df).map (fun r => r.loc_deleted) = df.map (fun r => r.loc_deleted) := by
  simp only [coerceDates, List.map_map]
  rfl

theorem coerce_map_loc_modified (df : List ChurnRecord) :
    (coerceDates df).map (fun r => r.loc_modified) = df.map (fun r => r.loc_modified) := by
  simp only [coerceDates, List.map_map]
  rfl

theorem check_non_negative_coerce (df : List ChurnRecord) :
    check_non_negative_LOC (coerceDates df) = check_non_negative_LOC df := by
  rw [check_non_negative_LOC, check_non_negative_LOC,
    coerce_map_loc_added, coerce_map_loc_deleted, coerce_map_loc_modified]

theorem check_LOC_consistency_coerce (df : List ChurnRecord) :
    check_LOC_consistency (coerceDates df) = check_LOC_consistency df := by
  induction df with
  | nil => rfl
  | cons r rs ih =>
    show check_LOC_consistency (coerceRecord r :: coerceDates rs) = _
    rw [check_LOC_consistency, check_LOC_consistency, ih]
    rfl

theorem check_reasonable_coerce (df : List ChurnRecord) :
    check_reasonable_LOC_bounds (coerceDates df) = check_reasonable_LOC_bounds df := by
  rw [check_reasonable_LOC_bounds, check_reasonable_LOC_bounds, coerce_map_loc_modified]

theorem check_hash_coerce (df : List ChurnRecord) :
    check_valid_commit_hash (coerceDates df) = check_valid_commit_hash df := by
  simp only [check_valid_commit_hash, coerceDates, List.all_map]
  rfl

theorem check_author_coerce (df : List ChurnRecord) :
    check_author_validity (coerceDates df) = check_author_validity df := by
  simp only [check_author_validity, coerceDates, List.all_map]
  rfl

theorem check_module_coerce (df : List ChurnRecord) :
    check_module_field_presence (coerceDates df) = check_module_field_presence df := by
  simp only [check_module_field_presence, coerceDates, List.all_map]
  rfl

/-- C5 counterexample: on a freshly loaded frame whose two date strings
are lexicographically increasing but the second unparseable, the
standalone chronological_order check is `true`, while the battery's
entry is `false` — the battery's in-place date coercion (a side effect
of the valid_dates step) changed the column it reads. -/
theorem c5_independence_counterexample :
    check_chronological_order [recA, recBadDate] = true ∧
    ∃ c df2, free_of_error_checks [recA, recBadDate] 800000 = .ok (c, df2) ∧
      c.chronological_order = false := by
  refine ⟨by decide, ?_⟩
  exact ⟨{ missing_values := true, valid_dates := false, no_duplicates := true
         , non_negative_LOC := true, LOC_consistency := true
         , reasonable_LOC_bounds := true, valid_commit_hash := true
         , author_validity := true, module_field_presence := true
         , chronological_order := false },
    [{ recA with date := .parsed (some 739192) },
     { recBadDate with date := .parsed none }], by decide, rfl⟩

/-- C5 amended: the eight checks that do not read the date column after
the battery's in-place coercion (all but no_duplicates and
chronological_order) evaluate standalone on the freshly loaded dataset
to exactly the battery's entry; no_duplicates and chronological_order
read the coerced column inside the battery and can differ standalone. -/
theorem c5_independence_amended (df : List ChurnRecord) (today : Int)
    (c : IQChecks) (df2 : List ChurnRecord)
    (h : free_of_error_checks df today = .ok (c, df2)) :
    check_missing_values df = c.missing_values ∧
    check_valid_dates df today = c.valid_dates ∧
    check_non_negative_LOC df = .ok c.non_negative_LOC ∧
    check_LOC_consistency df = .ok c.LOC_consistency ∧
    check_reasonable_LOC_bounds df = .ok c.reasonable_LOC_bounds ∧
    check_valid_commit_hash df = c.valid_commit_hash ∧
    check_author_validity df = c.author_validity ∧
    check_module_field_presence df = c.module_field_presence := by
  obtain ⟨-, nn, lc, rb, hnn, hlc, hrb, rfl⟩ := free_of_error_checks_ok_inv h
  rw [check_non_negative_coerce] at hnn
  rw [check_LOC_consistency_coerce] at hlc
  rw [check_reasonable_coerce] at hrb
  exact ⟨rfl, rfl, hnn, hlc, hrb,
    (check_hash_coerce df).symm, (check_author_coerce df).symm,
    (check_module_coerce df).symm⟩

theorem c5_independence_amended_witness :
    check_missing_values [recA] = true ∧
    check_valid_dates [recA] 800000 = true ∧
    check_non_negative_LOC [recA] = .ok true ∧
    check_LOC_consistency [recA] = .ok true ∧
    check_reasonable_LOC_bounds [recA] = .ok true ∧
    check_valid_commit_hash [recA] = true ∧
    check_author_validity [recA] = true ∧
    check_module_field_presence [recA] = true :=
  c5_independence_amended [recA] 800000
    { missing_values := true, valid_dates := true, no_duplicates := true
    , non_negative_LOC := true, LOC_consistency := true
    , reasonable_LOC_bounds := true, valid_commit_hash := true
    , author_validity := true, module_field_presence := true
    , chronological_order := true }
    [{ recA with date := .parsed (some 739192) }] (by decide)

/-- C6 counterexample: running the battery on a clean one-row dataset
returns a frame different from the input — the raw date string has
been replaced in place by its parsed value. -/
theorem c6_immutability_counterexample :
    ∃ c df2, free_of_error_checks [recA] 800000 = .ok (c, df2) ∧ df2 ≠ [recA] :=
  ⟨{ missing_values := true, valid_dates := true, no_duplicates := true
   , non_negative_LOC := true, LOC_consistency := true
   , reasonable_LOC_bounds := true, valid_commit_hash := true
   , author_validity := true, module_field_presence := true
   , chronological_order := true },
   [{ recA with date := .parsed (some 739192) }], by decide, by decide⟩

/-- C6 amended: the battery's only mutation is the in-place coercion of
the date column: the frame it leaves behind is exactly the input with
each record's date replaced by its parsed value, every other field of
every record untouched and the row order preserved.  (The timeliness
scorer reads only the date column and mutates nothing.) -/
theorem c6_mutation_only_dates (df : List ChurnRecord) (today : Int)
    (c : IQChecks) (df2 : List ChurnRecord)
    (h : free_of_error_checks df today = .ok (c, df2)) :
    df2 = df.map (fun r => { r with date := .parsed (toDatetime r.date) }) :=
  (free_of_error_checks_ok_inv h).1

theorem c6_mutation_only_dates_witness :
    [{ recA with date := .parsed (some 739192) }] =
      [recA].map (fun r => { r with date := .parsed (toDatetime r.date) }) :=
  c6_mutation_only_dates [recA] 800000
    { missing_values := true, valid_dates := true, no_duplicates := true
    , non_negative_LOC := true, LOC_consistency := true
    , reasonable_LOC_bounds := true, valid_commit_hash := true
    , author_validity := true, module_field_presence := true
    , chronological_order := true }
    [{ recA with date := .parsed (some 739192) }] (by decide)

end ChurnIQ

namespace ChurnIQ

/-! ## Error-semantics lemmas for the LOC checks -/

/-- No string cell in any of the three LOC columns of a record. -/
def locNoStr (r : ChurnRecord) : Prop :=
  cellIsStr r.loc_added = false ∧ cellIsStr r.loc_deleted = false ∧
    cellIsStr r.loc_modified = false

instance (r : ChurnRecord) : Decidable (locNoStr r) := by
  unfold locNoStr
  infer_instance

theorem cellGe0_ok {c : CellVal} (h : cellIsStr c = false) :
    ∃ b, cellGe0 c = .ok b := by
  cases c with
  | int n => exact ⟨_, rfl⟩
  | str s => simp [cellIsStr] at h
  | null => exact ⟨_, rfl⟩

theorem cellLt10000_ok {c : CellVal} (h : cellIsStr c = false) :
    ∃ b, cellLt10000 c = .ok b := by
  cases c with
  | int n => exact ⟨_, rfl⟩
  | str s => simp [cellIsStr] at h
  | null => exact ⟨_, rfl⟩

theorem addCell_ok {a d : CellVal} (ha : cellIsStr a = false)
    (hd : cellIsStr d = false) : ∃ s, addCell a d = .ok s := by
  cases a <;> cases d <;> first
    | exact ⟨_, rfl⟩
    | simp_all [cellIsStr]

theorem not_str_of_cellGe0_ok {c : CellVal} {b : Bool} (h : cellGe0 c = .ok b) :
    cellIsStr c = false := by
  cases c <;> simp_all [cellGe0, cellIsStr]

theorem not_str_of_cellLt10000_ok {c : CellVal} {b : Bool}
    (h : cellLt10000 c = .ok b) : cellIsStr c = false := by
  cases c <;> simp_all [cellLt10000, cellIsStr]

theorem not_str_snd_of_addCell_ok {a d s : CellVal} (ha : cellIsStr a = false)
    (h : addCell a d = .ok s) : cellIsStr d = false := by
  cases a <;> cases d <;> simp_all [addCell, cellIsStr]

theorem seriesAll_isOk {f : CellVal → Except PdError Bool} {cs : List CellVal}
    (h : ∀ c ∈ cs, ∃ b, f c = .ok b) : ∃ b, seriesAll f cs = .ok b := by
  induction cs with
  | nil => exact ⟨true, rfl⟩
  | cons c t ih =>
    obtain ⟨b, hb⟩ := h c (List.mem_cons_self _ _)
    obtain ⟨r, hr⟩ := ih (fun x hx => h x (List.mem_cons_of_mem _ hx))
    exact ⟨b && r, by rw [seriesAll, hb, hr]⟩

theorem seriesAll_ok_mem {f : CellVal → Except PdError Bool} {cs : List CellVal}
    {b : Bool} (h : seriesAll f cs = .ok b) : ∀ c ∈ cs, ∃ b', f c = .ok b' := by
  induction cs generalizing b with
  | nil => simp
  | cons c t ih =>
    rw [seriesAll] at h
    split at h
    · exact absurd h (by simp)
    next b1 hb1 =>
      split at h
      · exact absurd h (by simp)
      next br hbr =>
        intro x hx
        rcases List.mem_cons.mp hx with rfl | hmem
        · exact ⟨b1, hb1⟩
        · exact ih hbr x hmem

theorem seriesAll_error_of_str {f : CellVal → Except PdError Bool}
    (hf : ∀ s, f (.str s) = .error .typeError)
    (hok : ∀ c, cellIsStr c = false → ∃ b, f c = .ok b)
    {cs : List CellVal} (h : ∃ c ∈ cs, cellIsStr c = true) :
    seriesAll f cs = .error .typeError := by
  induction cs with
  | nil => simp at h
  | cons c t ih =>
    rw [seriesAll]
    by_cases hc : cellIsStr c = true
    · obtain ⟨s, rfl⟩ : ∃ s, c = .str s := by
        cases c <;> simp_all [cellIsStr]
      rw [hf]
    · have hc' : cellIsStr c = false := by simpa using hc
      obtain ⟨b, hb⟩ := hok c hc'
      rw [hb]
      have ht : ∃ x ∈ t, cellIsStr x = true := by
        rcases h with ⟨x, hx, hxs⟩
        rcases List.mem_cons.mp hx with rfl | hmem
        · exact absurd hxs hc
        · exact ⟨x, hmem, hxs⟩
      rw [ih ht]

theorem check_non_negative_inv {df : List ChurnRecord} {b : Bool}
    (h : check_non_negative_LOC df = .ok b) :
    ∃ a, seriesAll cellGe0 (df.map fun r => r.loc_added) = .ok a := by
  rw [check_non_negative_LOC] at h
  split at h
  · exact absurd h (by simp)
  next a ha => exact ⟨a, ha⟩

theorem check_non_negative_ok {df : List ChurnRecord}
    (h : ∀ r ∈ df, locNoStr r) : ∃ b, check_non_negative_LOC df = .ok b := by
  have hmem : ∀ (f : ChurnRecord → CellVal), (∀ r ∈ df, cellIsStr (f r) = false) →
      ∀ c ∈ df.map f, ∃ b, cellGe0 c = .ok b := by
    intro f hall c hc
    obtain ⟨r, hr, rfl⟩ := List.mem_map.mp hc
    exact cellGe0_ok (hall r hr)
  obtain ⟨a, ha⟩ := seriesAll_isOk (hmem _ (fun r hr => (h r hr).1))
  obtain ⟨b, hb⟩ := seriesAll_isOk (hmem _ (fun r hr => (h r hr).2.1))
  obtain ⟨c, hc⟩ := seriesAll_isOk (hmem _ (fun r hr => (h r hr).2.2))
  cases a with
  | false => exact ⟨false, by rw [check_non_negative_LOC, ha]; rfl⟩
  | true =>
    cases b with
    | false => exact ⟨false, by rw [check_non_negative_LOC, ha, hb]; rfl⟩
    | true => exact ⟨c, by rw [check_non_negative_LOC, ha, hb, hc]; rfl⟩

theorem check_non_negative_error_of_str {df : List ChurnRecord}
    (h : ∃ r ∈ df, cellIsStr r.loc_added = true) :
    check_non_negative_LOC df = .error .typeError := by
  have : seriesAll cellGe0 (df.map fun r => r.loc_added) = .error .typeError := by
    apply seriesAll_error_of_str (fun s => rfl) (fun c hc => cellGe0_ok hc)
    obtain ⟨r, hr, hrs⟩ := h
    exact ⟨r.loc_added, List.mem_map_of_mem _ hr, hrs⟩
  rw [check_non_negative_LOC, this]

theorem check_LOC_consistency_ok {df : List ChurnRecord}
    (h : ∀ r ∈ df, locNoStr r) : ∃ b, check_LOC_consistency df = .ok b := by
  induction df with
  | nil => exact ⟨true, rfl⟩
  | cons r rs ih =>
    obtain ⟨hA, hD, _⟩ := h r (List.mem_cons_self _ _)
    obtain ⟨s, hs⟩ := addCell_ok hA hD
    obtain ⟨b, hb⟩ := ih (fun x hx => h x (List.mem_cons_of_mem _ hx))
    exact ⟨_, by rw [check_LOC_consistency, hs, hb]⟩

theorem check_LOC_consistency_ok_mem {df : List ChurnRecord} {b : Bool}
    (h : check_LOC_consistency df = .ok b) :
    ∀ r ∈ df, ∃ s, addCell r.loc_added r.loc_deleted = .ok s := by
  induction df generalizing b with
  | nil => simp
  | cons r rs ih =>
    rw [check_LOC_consistency] at h
    split at h
    · exact absurd h (by simp)
    next s hs =>
      split at h
      · exact absurd h (by simp)
      next br hbr =>
        intro x hx
        rcases List.mem_cons.mp hx with rfl | hmem
        · exact ⟨s, hs⟩
        · exact ih hbr x hmem

theorem check_reasonable_ok {df : List ChurnRecord}
    (h : ∀ r ∈ df, locNoStr r) :
    ∃ b, check_reasonable_LOC_bounds df = .ok b := by
  apply seriesAll_isOk
  intro c hc
  obtain ⟨r, hr, rfl⟩ := List.mem_map.mp hc
  exact cellLt10000_ok (h r hr).2.2

/-- A battery run that returns implies no LOC cell anywhere is a
string: check 4 vets `loc_added`, check 5's elementwise `+` vets
`loc_deleted`, and check 6 vets `loc_modified`. -/
theorem battery_ok_no_str {df : List ChurnRecord} {today : Int} {c : IQChecks}
    {df2 : List ChurnRecord} (h : free_of_error_checks df today = .ok (c, df2)) :
    ∀ r ∈ df, locNoStr r := by
  obtain ⟨-, nn, lc, rb, hnn, hlc, hrb, -⟩ := free_of_error_checks_ok_inv h
  rw [check_non_negative_coerce] at hnn
  rw [check_LOC_consistency_coerce] at hlc
  rw [check_reasonable_coerce] at hrb
  intro r hr
  obtain ⟨a, ha⟩ := check_non_negative_inv hnn
  obtain ⟨bA, hbA⟩ := seriesAll_ok_mem ha r.loc_added (List.mem_map_of_mem _ hr)
  have hA : cellIsStr r.loc_added = false := not_str_of_cellGe0_ok hbA
  obtain ⟨s, hs⟩ := check_LOC_consistency_ok_mem hlc r hr
  have hD : cellIsStr r.loc_deleted = false := not_str_snd_of_addCell_ok hA hs
  obtain ⟨bM, hbM⟩ := seriesAll_ok_mem hrb r.loc_modified (List.mem_map_of_mem _ hr)
  exact ⟨hA, hD, not_str_of_cellLt10000_ok hbM⟩

/-- valid_dates is false whenever some date fails to parse. -/
theorem check_valid_dates_false_of_unparseable {df : List ChurnRecord}
    {today : Int} (h : ∃ r ∈ df, toDatetime r.date = none) :
    check_valid_dates df today = false := by
  obtain ⟨r, hr, hbad⟩ := h
  have h1 : (coerceDates df).all (fun x => (toDatetime x.date).isSome) = false := by
    rw [List.all_eq_false]
    refine ⟨coerceRecord r, List.mem_map_of_mem _ hr, ?_⟩
    have h2 : toDatetime (coerceRecord r).date = toDatetime r.date := rfl
    simp [h2, hbad]
  simp [check_valid_dates, h1]

/-- C2 counterexample: a single non-numeric `loc_added` cell makes the
battery raise a `TypeError` instead of reporting a false check. -/
theorem c2_malformed_loc_counterexample :
    free_of_error_checks [recStrLoc] 800000 = .error .typeError := by decide

/-- C2 amended: the battery never raises on datasets whose LOC cells
are numeric or null — in particular an unparseable date is coerced to
NaT and only drives valid_dates to false — but a string (non-numeric)
LOC value makes the elementwise LOC comparisons raise a TypeError that
escapes the battery. -/
theorem c2_error_semantics_amended :
    (∀ (df : List ChurnRecord) (today : Int),
        (∀ r ∈ df, locNoStr r) →
        ∃ c df2, free_of_error_checks df today = .ok (c, df2) ∧
          ((∃ r ∈ df, toDatetime r.date = none) → c.valid_dates = false)) ∧
    (∀ (df : List ChurnRecord) (today : Int),
        (∃ r ∈ df, cellIsStr r.loc_added = true) →
        free_of_error_checks df today = .error .typeError) := by
  constructor
  · intro df today h
    obtain ⟨nn, hnn⟩ := check_non_negative_ok h
    obtain ⟨lc, hlc⟩ := check_LOC_consistency_ok h
    obtain ⟨rb, hrb⟩ := check_reasonable_ok h
    refine ⟨{ missing_values := check_missing_values df
            , valid_dates := check_valid_dates df today
            , no_duplicates := check_no_duplicates (coerceDates df)
            , non_negative_LOC := nn, LOC_consistency := lc
            , reasonable_LOC_bounds := rb
            , valid_commit_hash := check_valid_commit_hash (coerceDates df)
            , author_validity := check_author_validity (coerceDates df)
            , module_field_presence := check_module_field_presence (coerceDates df)
            , chronological_order := chronoParsed (coerceDates df) },
      coerceDates df, ?_, fun hbad => check_valid_dates_false_of_unparseable hbad⟩
    rw [free_of_error_checks]
    simp only [check_non_negative_coerce, check_LOC_consistency_coerce,
      check_reasonable_coerce, hnn, hlc, hrb]
  · intro df today h
    have herr : check_non_negative_LOC (coerceDates df) = .error .typeError := by
      rw [check_non_negative_coerce]
      exact check_non_negative_error_of_str h
    rw [free_of_error_checks]
    simp only [herr]

theorem c2_error_semantics_amended_witness :
    (∃ c df2, free_of_error_checks [recBadDate] 800000 = .ok (c, df2) ∧
      ((∃ r ∈ [recBadDate], toDatetime r.date = none) → c.valid_dates = false)) ∧
    free_of_error_checks [recA, recStrLoc] 800000 = .error .typeError :=
  ⟨c2_error_semantics_amended.1 [recBadDate] 800000 (by decide),
   c2_error_semantics_amended.2 [recA, recStrLoc] 800000
     ⟨recStrLoc, by decide, by decide⟩⟩

/-- Row-level content of check 5 on non-string LOC cells: the
elementwise equation holds iff the three cells are integers with
`modified = added + deleted` exactly. -/
theorem row_consistency_iff {a d m s : CellVal} (ha : cellIsStr a = false)
    (hs : addCell a d = .ok s) :
    (eqCell m s = true ↔
      ∃ x y : Int, a = .int x ∧ d = .int y ∧ m = .int (x + y)) := by
  cases a with
  | str sa => simp [cellIsStr] at ha
  | int x =>
    cases d with
    | str sd => simp [addCell] at hs
    | int y =>
      simp only [addCell, Except.ok.injEq] at hs
      subst hs
      cases m <;> simp [eqCell]
    | null =>
      simp only [addCell, Except.ok.injEq] at hs
      subst hs
      cases m <;> simp [eqCell]
  | null =>
    cases d with
    | str sd => simp [addCell] at hs
    | int y =>
      simp only [addCell, Except.ok.injEq] at hs
      subst hs
      cases m <;> simp [eqCell]
    | null =>
      simp only [addCell, Except.ok.injEq] at hs
      subst hs
      cases m <;> simp [eqCell]

/-- check 5 over a whole frame of non-string LOC cells: true iff every
row satisfies the equation exactly. -/
theorem check_LOC_consistency_iff {df : List ChurnRecord} {b : Bool}
    (hstr : ∀ r ∈ df, cellIsStr r.loc_added = false)
    (h : check_LOC_consistency df = .ok b) :
    (b = true ↔ ∀ r ∈ df, ∃ x y : Int, r.loc_added = .int x ∧
      r.loc_deleted = .int y ∧ r.loc_modified = .int (x + y)) := by
  induction df generalizing b with
  | nil =>
    have hb : b = true := by
      rw [check_LOC_consistency] at h
      exact (Except.ok.inj h).symm
    simp [hb]
  | cons r rs ih =>
    rw [check_LOC_consistency] at h
    split at h
    · exact absurd h (by simp)
    next s hs =>
      split at h
      · exact absurd h (by simp)
      next br hbr =>
        have hb : (eqCell r.loc_modified s && br) = b := Except.ok.inj h
        rw [← hb, Bool.and_eq_true, List.forall_mem_cons]
        rw [row_consistency_iff (hstr r (List.mem_cons_self _ _)) hs]
        rw [ih (fun x hx => hstr x (List.mem_cons_of_mem _ hx)) hbr]

/-- C7: every record the extractor emits satisfies
`loc_modified = loc_added + loc_deleted` by construction, and whenever
the battery returns, its LOC_consistency entry is true iff every row
of the input satisfies that equation exactly. -/
theorem c7_loc_invariant :
    (∀ (commits : List CommitInfo) (r : ChurnRecord),
        r ∈ extract_code_churn commits →
        ∃ a d : Int, r.loc_added = .int a ∧ r.loc_deleted = .int d ∧
          r.loc_modified = .int (a + d)) ∧
    (∀ (df : List ChurnRecord) (today : Int) (c : IQChecks)
        (df2 : List ChurnRecord),
        free_of_error_checks df today = .ok (c, df2) →
        (c.LOC_consistency = true ↔
          ∀ r ∈ df, ∃ a d : Int, r.loc_added = .int a ∧ r.loc_deleted = .int d ∧
            r.loc_modified = .int (a + d))) := by
  constructor
  · intro commits r hr
    induction commits with
    | nil => simp [extract_code_churn] at hr
    | cons cinfo cs ih =>
      rw [extract_code_churn] at hr
      rcases List.mem_append.mp hr with hmem | hmem
      · cases hstat : cinfo.statsFiles with
        | error e => simp [hstat] at hmem
        | ok files =>
          simp only [hstat] at hmem
          obtain ⟨p, hp, rfl⟩ := List.mem_map.mp hmem
          exact ⟨_, _, rfl, rfl, rfl⟩
      · exact ih hmem
  · intro df today c df2 h
    have hstr := battery_ok_no_str h
    obtain ⟨-, nn, lc, rb, hnn, hlc, hrb, rfl⟩ := free_of_error_checks_ok_inv h
    rw [check_LOC_consistency_coerce] at hlc
    exact check_LOC_consistency_iff (fun r hr => (hstr r hr).1) hlc

theorem c7_loc_invariant_witness :
    (∃ a d : Int,
      (recordOfFile exCommitGood "src/a.py" exStatGood).loc_added = .int a ∧
      (recordOfFile exCommitGood "src/a.py" exStatGood).loc_deleted = .int d ∧
      (recordOfFile exCommitGood "src/a.py" exStatGood).loc_modified = .int (a + d)) ∧
    (({ missing_values := true, valid_dates := true, no_duplicates := true
      , non_negative_LOC := true, LOC_consistency := true
      , reasonable_LOC_bounds := true, valid_commit_hash := true
      , author_validity := true, module_field_presence := true
      , chronological_order := true } : IQChecks).LOC_consistency = true ↔
      ∀ r ∈ [recA], ∃ a d : Int, r.loc_added = .int a ∧ r.loc_deleted = .int d ∧
        r.loc_modified = .int (a + d)) :=
  ⟨c7_loc_invariant.1 [exCommitGood] (recordOfFile exCommitGood "src/a.py" exStatGood)
     (by simp [extract_code_churn, exCommitGood]),
   c7_loc_invariant.2 [recA] 800000 _ [{ recA with date := .parsed (some 739192) }]
     (by decide)⟩

theorem extract_append (xs ys : List CommitInfo) :
    extract_code_churn (xs ++ ys) =
      extract_code_churn xs ++ extract_code_churn ys := by
  induction xs with
  | nil => rfl
  | cons c t ih =>
    simp only [List.cons_append, extract_code_churn, List.append_eq, ih,
      List.append_assoc]

/-- C8: a commit whose change-statistics retrieval raises contributes
no records, and the surrounding commits are processed exactly as if it
were absent — the failure is local, not fatal. -/
theorem c8_commit_failure_is_local (pre : List CommitInfo) (cBad : CommitInfo)
    (post : List CommitInfo) (e : String) (h : cBad.statsFiles = .error e) :
    extract_code_churn (pre ++ cBad :: post) =
      extract_code_churn pre ++ extract_code_churn post := by
  rw [extract_append]
  rw [extract_code_churn, h]
  simp

theorem c8_commit_failure_is_local_witness :
    extract_code_churn ([exCommitGood] ++ exCommitBad :: [exCommitGood]) =
      extract_code_churn [exCommitGood] ++ extract_code_churn [exCommitGood] :=
  c8_commit_failure_is_local [exCommitGood] exCommitBad [exCommitGood]
    "stats failed" rfl

end ChurnIQ
